import Mathlib

/-!
# Service worker `sw.js` of the API monitor

A shallow embedding of `src/api_monitor/static/sw.js`: the two event listeners
the script registers (`push` and `notificationclick`), together with the part
of the JavaScript value model they rely on (truthiness, property read, object
literals) and the trace of platform calls each listener performs. For the
property that the script keeps no state between events, the script is also
given as a program, run by an interpreter with an explicit global state, and
shown to make the calls of the two listeners.
-/

namespace SW

/-! ## JavaScript values -/

/-- A JavaScript number. Finite doubles are embedded in the rationals (the two
zeros `0` and `-0` are both `finite 0`); they only flow through the listeners
as data, and the only question ever asked of one is whether it is truthy. -/
inductive JSNum where
  | nan
  | infinite (negative : Bool)
  | finite (q : ℚ)

/-- The values that reach the listeners: what `JSON.parse` can build, plus
`undefined`, which is what reading an absent property gives. -/
inductive JSVal where
  | undefined
  | null
  | bool (b : Bool)
  | num (n : JSNum)
  | str (s : String)
  | arr (items : List JSVal)
  | obj (fields : List (String × JSVal))

/-- The errors a listener can throw. `parseFailure` is the `SyntaxError` of
`event.data.json()`, `typeError` the `TypeError` of reading a property of
`null` or `undefined`, `referenceError` the `ReferenceError` of an identifier
that is bound nowhere. -/
inductive JSError where
  | parseFailure
  | typeError
  | referenceError
  deriving DecidableEq, Repr

/-- ToBoolean on numbers: `0`, `-0` and `NaN` are falsy. -/
def JSNum.truthy : JSNum → Bool
  | .nan => false
  | .infinite _ => true
  | .finite q => decide (q ≠ 0)

/-- ToBoolean, as applied by `if (...)`: `undefined`, `null`, `false`, `0`,
`NaN` and `""` are falsy, every object (arrays included) is truthy. -/
def JSVal.truthy : JSVal → Bool
  | .undefined => false
  | .null => false
  | .bool b => b
  | .num n => n.truthy
  | .str s => decide (s ≠ "")
  | .arr _ => true
  | .obj _ => true

/-- Property read `v.key` for the keys the script reads (`message`, `url`,
`title`), none of which lives on a built-in prototype: `null` and `undefined`
throw a `TypeError`, an object gives its own property or `undefined`, and
every other value gives `undefined`. -/
def JSVal.get (v : JSVal) (key : String) : Except JSError JSVal :=
  match v with
  | .undefined => .error .typeError
  | .null => .error .typeError
  | .obj fields => .ok ((fields.lookup key).getD .undefined)
  | _ => .ok .undefined

/-- The own property names of a value, in insertion order. -/
def JSVal.keys : JSVal → List String
  | .obj fields => fields.map Prod.fst
  | _ => []

/-- Own property lookup that tells an absent property from one holding
`undefined`. -/
def JSVal.own (v : JSVal) (key : String) : Option JSVal :=
  match v with
  | .obj fields => fields.lookup key
  | _ => none

/-! ## Platform objects and calls -/

/-- The `PushMessageData` object of a push event, given by what its `json()`
method does: `none` when the body is not well-formed JSON (the method throws),
otherwise the parsed value. -/
structure PushMessageData where
  json : Option JSVal

/-- The `Notification` of a click event; `data` is `null` when the
notification was shown without data. -/
structure Notification where
  data : JSVal

/-- The two promise-returning platform requests the script makes. -/
inductive Request where
  | showNotification (title : JSVal) (options : JSVal)
  | openWindow (url : JSVal)

/-- A platform promise, identified by the request that returned it. -/
structure Promise where
  returnedBy : Request

/-- One call into the platform. -/
inductive Call where
  | json
  | close
  | request (r : Request)
  | waitUntil (p : Promise)

/-- The run of a listener: the platform calls made, in order, and how the
listener ended (normally, or by throwing). -/
structure Run (α : Type) where
  trace : List Call
  outcome : Except JSError α

/-- Sequencing: the second part runs only when the first did not throw. -/
def Run.bind {α β : Type} (m : Run α) (f : α → Run β) : Run β :=
  match m.outcome with
  | .error e => ⟨m.trace, .error e⟩
  | .ok a => ⟨m.trace ++ (f a).trace, (f a).outcome⟩

instance : Monad Run where
  pure a := ⟨[], .ok a⟩
  bind := Run.bind

/-- Evaluation of an expression that may throw, without a platform call. -/
def eval {α : Type} (r : Except JSError α) : Run α := ⟨[], r⟩

/-- The call `event.data.json()`. -/
def PushMessageData.callJson (d : PushMessageData) : Run JSVal :=
  match d.json with
  | none => ⟨[.json], .error .parseFailure⟩
  | some v => ⟨[.json], .ok v⟩

/-- The call `self.registration.showNotification(title, options)`. -/
def showNotification (title options : JSVal) : Run Promise :=
  ⟨[.request (.showNotification title options)], .ok ⟨.showNotification title options⟩⟩

/-- The call `clients.openWindow(url)`. -/
def openWindow (url : JSVal) : Run Promise :=
  ⟨[.request (.openWindow url)], .ok ⟨.openWindow url⟩⟩

/-- The call `event.waitUntil(p)`. -/
def waitUntil (p : Promise) : Run Unit := ⟨[.waitUntil p], .ok ()⟩

/-- The call `event.notification.close()`. -/
def close : Run Unit := ⟨[.close], .ok ()⟩

/-! ## The script -/

/-- The object literal of lines 4-11, given the values read from the
payload. -/
def options (message url : JSVal) : JSVal :=
  .obj [("body", message),
        ("icon", .str "/static/icon.png"),
        ("badge", .str "/static/badge.png"),
        ("data", url),
        ("requireInteraction", .bool true),
        ("vibrate", .arr [.num (.finite 200), .num (.finite 100), .num (.finite 200)])]

/-- The listener registered for `push` (lines 1-17). `event.data` is either a
`PushMessageData` object, which is truthy, or `null`. -/
def pushListener (eventData : Option PushMessageData) : Run Unit :=
  match eventData with
  | none => pure ()
  | some d => do
    let data ← d.callJson
    let message ← eval (data.get "message")
    let url ← eval (data.get "url")
    let opts := options message url
    let title ← eval (data.get "title")
    let p ← showNotification title opts
    waitUntil p

/-- The listener registered for `notificationclick` (lines 19-27). -/
def notificationclickListener (n : Notification) : Run Unit := do
  close
  if n.data.truthy then
    let p ← openWindow n.data
    waitUntil p
  else
    pure ()

/-- An event delivered to the worker. -/
inductive Event where
  | push (data : Option PushMessageData)
  | notificationclick (notification : Notification)

/-- The listener the script registered for the event's type. -/
def handle : Event → Run Unit
  | .push d => pushListener d
  | .notificationclick n => notificationclickListener n

/-- The notification the platform creates for `showNotification(title,
options)`: its data is a structured clone of `options.data`, and `null` when
that member is absent or `undefined`. -/
def shownNotification (opts : JSVal) : Notification :=
  match opts.own "data" with
  | none => ⟨.null⟩
  | some .undefined => ⟨.null⟩
  | some v => ⟨v⟩

/-! ## Reading a trace -/

/-- The `showNotification` requests of a trace, as (title, options) pairs. -/
def showRequests (trace : List Call) : List (JSVal × JSVal) :=
  trace.filterMap fun c =>
    match c with
    | .request (.showNotification t o) => some (t, o)
    | _ => none

/-- The arguments of the `openWindow` requests of a trace. -/
def openRequests (trace : List Call) : List JSVal :=
  trace.filterMap fun c =>
    match c with
    | .request (.openWindow u) => some u
    | _ => none

/-- The arguments of the `event.waitUntil` calls of a trace. -/
def waitArgs (trace : List Call) : List Promise :=
  trace.filterMap fun c =>
    match c with
    | .waitUntil p => some p
    | _ => none

/-- The number of `close` calls of a trace. -/
def closeCount (trace : List Call) : Nat :=
  (trace.filter fun c =>
    match c with
    | .close => true
    | _ => false).length

/-- The number of `json()` calls of a trace. -/
def jsonCount (trace : List Call) : Nat :=
  (trace.filter fun c =>
    match c with
    | .json => true
    | _ => false).length


/-! ## The script as a program

The listeners above are functions of their event. To say of the script itself
that it keeps nothing between events, `sw.js` is also given as a program of
the fragment of JavaScript it is written in, extended with reads and writes of
the worker's global object, and run by an interpreter that threads that global
state from one event to the next. -/

/-- The properties a script has set on the worker's global object `self`; this
is all the state that outlives a listener invocation. -/
abbrev Store := List (String × JSVal)

/-- The `const` bindings in scope, innermost first. -/
abbrev Env := List (String × JSVal)

/-- Property write: the value of an existing key is replaced in place, a new
key is added at the end. -/
def setProp (fields : List (String × JSVal)) (key : String) (v : JSVal) :
    List (String × JSVal) :=
  match fields with
  | [] => [(key, v)]
  | (k, w) :: rest => if k = key then (k, v) :: rest else (k, w) :: setProp rest key v

mutual
/-- Expressions. `eventDataJson` is `event.data.json()`, `notificationData` is
`event.notification.data`, `selfProp name` is `self.name`, `member e key` is
`e.key`, and `object` is an object literal. -/
inductive Expr where
  | lit (v : JSVal)
  | ident (name : String)
  | selfProp (name : String)
  | eventDataJson
  | notificationData
  | member (e : Expr) (key : String)
  | object (fields : Fields)
/-- The `key: value` entries of an object literal, in source order. -/
inductive Fields where
  | nil
  | cons (key : String) (value : Expr) (rest : Fields)
end

/-- The condition of an `if`: `event.data`, or any expression. -/
inductive Test where
  | eventData
  | value (e : Expr)

/-- The promise-returning calls `self.registration.showNotification(title,
options)` and `clients.openWindow(url)`. -/
inductive Req where
  | showNotification (title options : Expr)
  | openWindow (url : Expr)

mutual
/-- Statements: `const name = e;`, `self.name = e;`, `if (t) { body }`,
`event.waitUntil(r);` and `event.notification.close();`. -/
inductive Stmt where
  | const (name : String) (e : Expr)
  | setSelf (name : String) (e : Expr)
  | ifThen (t : Test) (body : Block)
  | waitUntil (r : Req)
  | close
/-- A sequence of statements. -/
inductive Block where
  | nil
  | cons (s : Stmt) (rest : Block)
end

/-- The entries of an object literal, from a list. -/
def Fields.ofList : List (String × Expr) → Fields
  | [] => .nil
  | (k, e) :: rest => .cons k e (Fields.ofList rest)

/-- The block of a list of statements. -/
def Block.ofList : List Stmt → Block
  | [] => .nil
  | s :: rest => .cons s (Block.ofList rest)

mutual
/-- Evaluation of an expression for the event being handled, in the given
global state and scope. An identifier is looked up in the scope, then on the
global object, and throws a `ReferenceError` when bound in neither. -/
def evalExpr (ev : Event) (store : Store) (env : Env) : Expr → Run JSVal
  | .lit v => pure v
  | .ident name =>
    match env.lookup name with
    | some v => pure v
    | none =>
      match store.lookup name with
      | some v => pure v
      | none => eval (.error .referenceError)
  | .selfProp name => pure ((store.lookup name).getD .undefined)
  | .eventDataJson =>
    match ev with
    | .push (some d) => d.callJson
    | _ => eval (.error .typeError)
  | .notificationData =>
    match ev with
    | .notificationclick n => pure n.data
    | .push _ => eval (.error .typeError)
  | .member e key => do
    let v ← evalExpr ev store env e
    eval (v.get key)
  | .object fields => do
    let kvs ← evalFields ev store env fields
    pure (.obj (kvs.foldl (fun o kv => setProp o kv.1 kv.2) []))
/-- Evaluation of the entries of an object literal, left to right. -/
def evalFields (ev : Event) (store : Store) (env : Env) : Fields → Run (List (String × JSVal))
  | .nil => pure []
  | .cons key value rest => do
    let v ← evalExpr ev store env value
    let vs ← evalFields ev store env rest
    pure ((key, v) :: vs)
end

/-- Evaluation of an `if` condition to its truthiness. `event.data` is truthy
exactly on a push event that carries data. -/
def evalTest (ev : Event) (store : Store) (env : Env) : Test → Run Bool
  | .eventData =>
    match ev with
    | .push (some _) => pure true
    | _ => pure false
  | .value e => do
    let v ← evalExpr ev store env e
    pure v.truthy

/-- Evaluation of a request: the arguments left to right, then the call. -/
def evalReq (ev : Event) (store : Store) (env : Env) : Req → Run Promise
  | .showNotification title opts => do
    let t ← evalExpr ev store env title
    let o ← evalExpr ev store env opts
    showNotification t o
  | .openWindow url => do
    let u ← evalExpr ev store env url
    openWindow u

/-- A computation that makes platform calls, may throw, and may read and write
the global state. -/
def Exec (α : Type) : Type := Store → Run α × Store

/-- Sequencing: the second part runs, from the state the first left, only when
the first did not throw. -/
def Exec.bind {α β : Type} (m : Exec α) (f : α → Exec β) : Exec β := fun s =>
  match (m s).1.outcome with
  | .error e => (⟨(m s).1.trace, .error e⟩, (m s).2)
  | .ok a => (⟨(m s).1.trace ++ (f a (m s).2).1.trace, (f a (m s).2).1.outcome⟩, (f a (m s).2).2)

instance : Monad Exec where
  pure a := fun s => (⟨[], .ok a⟩, s)
  bind := Exec.bind

/-- A computation that reads the global state and leaves it as it is. -/
def Exec.reading {α : Type} (f : Store → Run α) : Exec α := fun s => (f s, s)

/-- The write `self.name = v`. -/
def Exec.setSelf (name : String) (v : JSVal) : Exec Unit := fun s =>
  (⟨[], .ok ()⟩, setProp s name v)

mutual
/-- Execution of a statement; the result is the scope for the statements that
follow it in its block. -/
def execStmt (ev : Event) (env : Env) : Stmt → Exec Env
  | .const name e => do
    let v ← Exec.reading fun s => evalExpr ev s env e
    pure ((name, v) :: env)
  | .setSelf name e => do
    let v ← Exec.reading fun s => evalExpr ev s env e
    Exec.setSelf name v
    pure env
  | .ifThen t body => do
    let c ← Exec.reading fun s => evalTest ev s env t
    if c then execBlock ev env body else pure ()
    pure env
  | .waitUntil r => do
    let p ← Exec.reading fun s => evalReq ev s env r
    Exec.reading fun _ => waitUntil p
    pure env
  | .close =>
    match ev with
    | .notificationclick _ => do
      Exec.reading fun _ => close
      pure env
    | .push _ => Exec.reading fun _ => eval (.error .typeError)
/-- Execution of a block, statement by statement. -/
def execBlock (ev : Event) (env : Env) : Block → Exec Unit
  | .nil => pure ()
  | .cons s rest => do
    let env2 ← execStmt ev env s
    execBlock ev env2 rest
end

/-- A registration `self.addEventListener(eventType, function(event) { body })`. -/
structure Listener where
  eventType : String
  body : Block

/-- The `type` of an event. -/
def Event.type : Event → String
  | .push _ => "push"
  | .notificationclick _ => "notificationclick"

/-- Delivery of one event: the listeners registered for its type run in
registration order, each from the global state the previous one left. The
result is the platform calls made and the global state afterwards; an error
thrown by a listener is reported by the platform and stops nothing else. -/
def deliver (script : List Listener) (ev : Event) (store : Store) : List Call × Store :=
  script.foldl
    (fun acc l =>
      if l.eventType = ev.type then
        (acc.1 ++ (execBlock ev [] l.body acc.2).1.trace, (execBlock ev [] l.body acc.2).2)
      else acc)
    ([], store)

/-- Delivery of a sequence of events to one worker instance, each from the
global state the previous one left. -/
def runWorker (script : List Listener) (events : List Event) (store : Store) :
    List Call × Store :=
  events.foldl
    (fun acc ev => (acc.1 ++ (deliver script ev acc.2).1, (deliver script ev acc.2).2))
    ([], store)

/-- The body of the `push` listener, lines 2-16 of `sw.js`. -/
def pushBody : Block :=
  Block.ofList
    [.ifThen .eventData (Block.ofList
      [.const "data" .eventDataJson,
       .const "options" (.object (Fields.ofList
         [("body", .member (.ident "data") "message"),
          ("icon", .lit (.str "/static/icon.png")),
          ("badge", .lit (.str "/static/badge.png")),
          ("data", .member (.ident "data") "url"),
          ("requireInteraction", .lit (.bool true)),
          ("vibrate", .lit (.arr [.num (.finite 200), .num (.finite 100),
            .num (.finite 200)]))])),
       .waitUntil (.showNotification (.member (.ident "data") "title") (.ident "options"))])]

/-- The body of the `notificationclick` listener, lines 20-26 of `sw.js`. -/
def clickBody : Block :=
  Block.ofList
    [.close,
     .ifThen (.value .notificationData) (Block.ofList
       [.waitUntil (.openWindow .notificationData)])]

/-- The script `sw.js`: its two registrations, in source order. -/
def sw : List Listener :=
  [⟨"push", pushBody⟩, ⟨"notificationclick", clickBody⟩]

/-- A script that is not `sw.js`, for contrast: its click listener opens the
url remembered from the previous click and then remembers its own. -/
def remembering : List Listener :=
  [⟨"notificationclick", Block.ofList
    [.waitUntil (.openWindow (.selfProp "last")),
     .setSelf "last" .notificationData]⟩]

/-! ## Shape of the runs -/

/-- Reading a key of a parsed object never throws. -/
theorem get_obj (fields : List (String × JSVal)) (key : String) :
    (JSVal.obj fields).get key = .ok ((fields.lookup key).getD .undefined) := rfl

/-- The run of the push listener on a payload that parses to an object. -/
theorem pushListener_obj (fields : List (String × JSVal)) :
    pushListener (some ⟨some (.obj fields)⟩)
      = ⟨[.json,
          .request (.showNotification ((fields.lookup "title").getD .undefined)
            (options ((fields.lookup "message").getD .undefined)
              ((fields.lookup "url").getD .undefined))),
          .waitUntil ⟨.showNotification ((fields.lookup "title").getD .undefined)
            (options ((fields.lookup "message").getD .undefined)
              ((fields.lookup "url").getD .undefined))⟩],
         .ok ()⟩ := rfl

/-- The three shapes a push trace can take: nothing (no data), the `json()`
call alone (it threw, or a property read on its result did), or the full
sequence ending in `waitUntil`. -/
theorem pushListener_trace_cases (ev : Option PushMessageData) :
    (pushListener ev).trace = [] ∨ (pushListener ev).trace = [.json] ∨
    ∃ t m u, (pushListener ev).trace
      = [.json, .request (.showNotification t (options m u)),
         .waitUntil ⟨.showNotification t (options m u)⟩] := by
  rcases ev with _ | ⟨_ | v⟩
  · exact Or.inl rfl
  · exact Or.inr (Or.inl rfl)
  · cases v with
    | undefined => exact Or.inr (Or.inl rfl)
    | null => exact Or.inr (Or.inl rfl)
    | obj fields => exact Or.inr (Or.inr ⟨_, _, _, congrArg Run.trace (pushListener_obj fields)⟩)
    | bool b => exact Or.inr (Or.inr ⟨_, _, _, rfl⟩)
    | num n => exact Or.inr (Or.inr ⟨_, _, _, rfl⟩)
    | str s => exact Or.inr (Or.inr ⟨_, _, _, rfl⟩)
    | arr a => exact Or.inr (Or.inr ⟨_, _, _, rfl⟩)

/-- The run of the click listener on truthy data. -/
theorem click_truthy (n : Notification) (h : n.data.truthy = true) :
    notificationclickListener n
      = ⟨[.close, .request (.openWindow n.data), .waitUntil ⟨.openWindow n.data⟩], .ok ()⟩ := by
  unfold notificationclickListener
  rw [if_pos h]
  rfl

/-- The run of the click listener on falsy data. -/
theorem click_falsy (n : Notification) (h : n.data.truthy = false) :
    notificationclickListener n = ⟨[.close], .ok ()⟩ := by
  unfold notificationclickListener
  rw [if_neg (by simp [h])]
  rfl


/-! ## The push listener -/

/-- C1: when the push data is present and parses to an object whose fields
`title`, `message` and `url` hold `T`, `M` and `U`, the listener ends normally
and its trace holds exactly one `showNotification` request, with title `T` and
an options object whose `body` is `M` and whose `data` is `U`. -/
theorem C1_push_shows_notification (d : PushMessageData) (fields : List (String × JSVal))
    (T M U : JSVal) (hjson : d.json = some (.obj fields))
    (hT : fields.lookup "title" = some T) (hM : fields.lookup "message" = some M)
    (hU : fields.lookup "url" = some U) :
    (pushListener (some d)).outcome = .ok () ∧
    ∃ opts, showRequests (pushListener (some d)).trace = [(T, opts)] ∧
      opts.own "body" = some M ∧ opts.own "data" = some U := by
  obtain ⟨j⟩ := d
  simp only at hjson
  subst hjson
  rw [pushListener_obj, hT, hM, hU]
  exact ⟨rfl, options M U, rfl, rfl, rfl⟩

/-- Witness of C1 on the payload with title "T", message "M" and url "/x". -/
theorem C1_push_shows_notification_witness :
    (pushListener (some ⟨some (.obj [("title", .str "T"), ("message", .str "M"),
        ("url", .str "/x")])⟩)).outcome = .ok () ∧
    ∃ opts, showRequests (pushListener (some ⟨some (.obj [("title", .str "T"),
        ("message", .str "M"), ("url", .str "/x")])⟩)).trace = [(.str "T", opts)] ∧
      opts.own "body" = some (.str "M") ∧ opts.own "data" = some (.str "/x") :=
  C1_push_shows_notification ⟨some (.obj [("title", .str "T"), ("message", .str "M"),
    ("url", .str "/x")])⟩ [("title", .str "T"), ("message", .str "M"), ("url", .str "/x")]
    (.str "T") (.str "M") (.str "/x") rfl rfl rfl rfl

/-- C2: a push event without data makes no platform call at all (no `json()`,
no `showNotification`, no `waitUntil`) and the listener ends normally. -/
theorem C2_push_without_data :
    (pushListener none).trace = [] ∧ (pushListener none).outcome = .ok () ∧
    showRequests (pushListener none).trace = [] ∧
    jsonCount (pushListener none).trace = 0 ∧
    waitArgs (pushListener none).trace = [] :=
  ⟨rfl, rfl, rfl, rfl, rfl⟩

/-- C5: every `showNotification` request of a push trace passes an options
object built by the literal of lines 4-11: `icon` is "/static/icon.png",
`badge` is "/static/badge.png", `requireInteraction` is `true`, `vibrate` is
`[200, 100, 200]`, its keys are exactly `body`, `icon`, `badge`, `data`,
`requireInteraction` and `vibrate`, and two such objects with the same `body`
and `data` are equal. -/
theorem C5_options_fixed (ev : Option PushMessageData) (t o : JSVal)
    (h : Call.request (.showNotification t o) ∈ (pushListener ev).trace) :
    o.own "icon" = some (.str "/static/icon.png") ∧
    o.own "badge" = some (.str "/static/badge.png") ∧
    o.own "requireInteraction" = some (.bool true) ∧
    o.own "vibrate" = some (.arr [.num (.finite 200), .num (.finite 100), .num (.finite 200)]) ∧
    o.keys = ["body", "icon", "badge", "data", "requireInteraction", "vibrate"] ∧
    ∃ b u, o.own "body" = some b ∧ o.own "data" = some u ∧ o = options b u := by
  rcases pushListener_trace_cases ev with h0 | h1 | ⟨t', m, u, h3⟩
  · rw [h0] at h
    cases h
  · rw [h1] at h
    simp at h
  · rw [h3] at h
    simp at h
    obtain ⟨-, rfl⟩ := h
    exact ⟨rfl, rfl, rfl, rfl, rfl, m, u, rfl, rfl, rfl⟩

/-- Witness of C5 on the payload with title "T", message "M" and url "/x". -/
theorem C5_options_fixed_witness :
    (options (.str "M") (.str "/x")).own "icon" = some (.str "/static/icon.png") ∧
    (options (.str "M") (.str "/x")).own "badge" = some (.str "/static/badge.png") ∧
    (options (.str "M") (.str "/x")).own "requireInteraction" = some (.bool true) ∧
    (options (.str "M") (.str "/x")).own "vibrate"
      = some (.arr [.num (.finite 200), .num (.finite 100), .num (.finite 200)]) ∧
    (options (.str "M") (.str "/x")).keys
      = ["body", "icon", "badge", "data", "requireInteraction", "vibrate"] ∧
    ∃ b u, (options (.str "M") (.str "/x")).own "body" = some b ∧
      (options (.str "M") (.str "/x")).own "data" = some u ∧
      options (.str "M") (.str "/x") = options b u :=
  C5_options_fixed (some ⟨some (.obj [("title", .str "T"), ("message", .str "M"),
    ("url", .str "/x")])⟩) (.str "T") (options (.str "M") (.str "/x"))
    (List.mem_cons_of_mem _ (List.mem_cons_self _ _))

/-- C6: when the push data is present but is not well-formed JSON, the
listener ends by throwing the parse failure, having called `json()` and
nothing else: no `showNotification` request and no `waitUntil`. -/
theorem C6_push_malformed (d : PushMessageData) (hjson : d.json = none) :
    (pushListener (some d)).outcome = .error .parseFailure ∧
    (pushListener (some d)).trace = [.json] ∧
    showRequests (pushListener (some d)).trace = [] ∧
    waitArgs (pushListener (some d)).trace = [] := by
  obtain ⟨j⟩ := d
  simp only at hjson
  subst hjson
  exact ⟨rfl, rfl, rfl, rfl⟩

/-- Witness of C6 on the data whose `json()` throws. -/
theorem C6_push_malformed_witness :
    (pushListener (some ⟨none⟩)).outcome = .error .parseFailure ∧
    (pushListener (some ⟨none⟩)).trace = [.json] ∧
    showRequests (pushListener (some ⟨none⟩)).trace = [] ∧
    waitArgs (pushListener (some ⟨none⟩)).trace = [] :=
  C6_push_malformed ⟨none⟩ rfl


/-! ## The click listener -/

/-- The two shapes a click trace can take. -/
theorem click_trace_cases (n : Notification) :
    (notificationclickListener n).trace = [.close] ∨
    (notificationclickListener n).trace
      = [.close, .request (.openWindow n.data), .waitUntil ⟨.openWindow n.data⟩] := by
  cases h : n.data.truthy
  · exact Or.inl (congrArg Run.trace (click_falsy n h))
  · exact Or.inr (congrArg Run.trace (click_truthy n h))

/-- C3, as stated, fails on data that is present but falsy: a click on a
notification whose data is the empty string issues no `openWindow` request for
it. -/
theorem C3_counterexample_empty_string :
    ¬ (openRequests (notificationclickListener ⟨.str ""⟩).trace = [.str ""]) := by
  intro h
  cases h

/-- C3 (amended): on a click whose notification carries truthy data `U`, the
listener ends normally and its trace is exactly: `close`, then one
`openWindow` request for `U`, then the `waitUntil` on that request. -/
theorem C3_click_opens_window (n : Notification) (h : n.data.truthy = true) :
    (notificationclickListener n).outcome = .ok () ∧
    (notificationclickListener n).trace
      = [.close, .request (.openWindow n.data), .waitUntil ⟨.openWindow n.data⟩] ∧
    openRequests (notificationclickListener n).trace = [n.data] ∧
    closeCount (notificationclickListener n).trace = 1 := by
  rw [click_truthy n h]
  exact ⟨rfl, rfl, rfl, rfl⟩

/-- Witness of C3 (amended) on the data "/x". -/
theorem C3_click_opens_window_witness :
    (notificationclickListener ⟨.str "/x"⟩).outcome = .ok () ∧
    (notificationclickListener ⟨.str "/x"⟩).trace
      = [.close, .request (.openWindow (.str "/x")), .waitUntil ⟨.openWindow (.str "/x")⟩] ∧
    openRequests (notificationclickListener ⟨.str "/x"⟩).trace = [.str "/x"] ∧
    closeCount (notificationclickListener ⟨.str "/x"⟩).trace = 1 :=
  C3_click_opens_window ⟨.str "/x"⟩ rfl

/-- C4: on a click whose notification carries no data (`null`, which is what
the platform reports for a notification shown without data, or `undefined`),
the trace is the single `close` call: no `openWindow` request and no
`waitUntil`. -/
theorem C4_click_without_data :
    (notificationclickListener ⟨.null⟩).trace = [.close] ∧
    closeCount (notificationclickListener ⟨.null⟩).trace = 1 ∧
    openRequests (notificationclickListener ⟨.null⟩).trace = [] ∧
    waitArgs (notificationclickListener ⟨.null⟩).trace = [] ∧
    (notificationclickListener ⟨.undefined⟩).trace = [.close] ∧
    (notificationclickListener ⟨.null⟩).outcome = .ok () :=
  ⟨rfl, rfl, rfl, rfl, rfl, rfl⟩

/-! ## The program and the listeners -/

/-- The program of the push listener, run from any global state, makes the
calls of `pushListener` and leaves the global state as it was. -/
theorem exec_pushBody (ev : Option PushMessageData) (s : Store) :
    execBlock (.push ev) [] pushBody s = (pushListener ev, s) := by
  rcases ev with _ | ⟨_ | v⟩
  · rfl
  · rfl
  · cases v <;> rfl

/-- The click program on a condition already decided. -/
theorem exec_clickBody_aux (n : Notification) (s : Store) (c : Bool) (h : n.data.truthy = c) :
    execBlock (.notificationclick n) [] clickBody s
      = (if c then
          (⟨[.close, .request (.openWindow n.data), .waitUntil ⟨.openWindow n.data⟩], .ok ()⟩ :
            Run Unit)
         else ⟨[.close], .ok ()⟩, s) := by
  subst h
  simp only [clickBody, Block.ofList, execBlock, execStmt, evalTest, evalReq, evalExpr,
    Exec.reading, bind, Exec.bind, pure, Run.bind, close, waitUntil, openWindow]
  cases n.data.truthy <;> rfl

/-- The program of the click listener, run from any global state, makes the
calls of `notificationclickListener` and leaves the global state as it was. -/
theorem exec_clickBody (n : Notification) (s : Store) :
    execBlock (.notificationclick n) [] clickBody s = (notificationclickListener n, s) := by
  cases h : n.data.truthy
  · rw [exec_clickBody_aux n s false h, click_falsy n h]
    rfl
  · rw [exec_clickBody_aux n s true h, click_truthy n h]
    rfl

/-- Delivery of one event to `sw.js`, from any global state: the calls are
those of the listener for the event, and the global state is untouched. -/
theorem deliver_sw (e : Event) (s : Store) : deliver sw e s = ((handle e).trace, s) := by
  cases e with
  | push ev =>
    have h1 : ("push" : String) = "push" := rfl
    have h2 : ¬ (("notificationclick" : String) = "push") := by decide
    simp only [deliver, sw, List.foldl, Event.type, if_pos h1, if_neg h2, exec_pushBody,
      List.nil_append, handle, if_true]
  | notificationclick n =>
    have h1 : ("notificationclick" : String) = "notificationclick" := rfl
    have h2 : ¬ (("push" : String) = "notificationclick") := by decide
    simp only [deliver, sw, List.foldl, Event.type, if_pos h1, if_neg h2, exec_clickBody,
      List.nil_append, handle, if_true]

/-- Delivery of a sequence of events to `sw.js`, continuing a log. -/
theorem foldl_deliver_sw (events : List Event) (log : List Call) (s : Store) :
    events.foldl
        (fun acc ev => (acc.1 ++ (deliver sw ev acc.2).1, (deliver sw ev acc.2).2)) (log, s)
      = (log ++ (events.map fun e => (handle e).trace).flatten, s) := by
  induction events generalizing log with
  | nil => simp
  | cons e es ih =>
    rw [List.foldl_cons]
    show List.foldl _ (log ++ (deliver sw e s).1, (deliver sw e s).2) es = _
    rw [deliver_sw e s, ih]
    simp only [List.map_cons, List.flatten_cons, List.append_assoc]

/-- The property is one of the script, not of the interpreter: the script
`remembering` makes different calls for the same click depending on the click
handled before it. -/
theorem remembering_depends_on_history :
    (deliver remembering (.notificationclick ⟨.str "/b"⟩)
        (runWorker remembering [.notificationclick ⟨.str "/a"⟩] []).2).1
      ≠ (deliver remembering (.notificationclick ⟨.str "/b"⟩) []).1 := by
  intro h
  have h2 : [Call.request (.openWindow (.str "/a")), .waitUntil ⟨.openWindow (.str "/a")⟩]
      = [Call.request (.openWindow .undefined), .waitUntil ⟨.openWindow .undefined⟩] := h
  simp at h2

/-! ## Both listeners -/

/-- C7: a push trace with a `showNotification` request, and a click trace with
an `openWindow` request, has exactly one `waitUntil` call, on the promise that
request returned; and in the trace of any event every `waitUntil` call comes
directly after the request whose promise it is given, at the end of the
trace. -/
theorem C7_waitUntil_on_own_request :
    (∀ (ev : Option PushMessageData) (t o : JSVal),
      Call.request (.showNotification t o) ∈ (pushListener ev).trace →
      waitArgs (pushListener ev).trace = [⟨.showNotification t o⟩]) ∧
    (∀ (n : Notification) (u : JSVal),
      Call.request (.openWindow u) ∈ (notificationclickListener n).trace →
      waitArgs (notificationclickListener n).trace = [⟨.openWindow u⟩]) ∧
    (∀ (e : Event) (p : Promise), Call.waitUntil p ∈ (handle e).trace →
      ∃ before, (handle e).trace = before ++ [.request p.returnedBy, .waitUntil p] ∧
        waitArgs before = []) := by
  refine ⟨?_, ?_, ?_⟩
  · intro ev t o h
    rcases pushListener_trace_cases ev with h0 | h1 | ⟨t', m, u, h3⟩
    · rw [h0] at h
      cases h
    · rw [h1] at h
      simp at h
    · rw [h3] at h ⊢
      simp at h
      obtain ⟨rfl, rfl⟩ := h
      rfl
  · intro n u h
    rcases click_trace_cases n with h1 | h3
    · rw [h1] at h
      simp at h
    · rw [h3] at h ⊢
      simp at h
      subst h
      rfl
  · intro e p h
    cases e with
    | push ev =>
      change Call.waitUntil p ∈ (pushListener ev).trace at h
      change ∃ before, (pushListener ev).trace = _ ∧ _
      rcases pushListener_trace_cases ev with h0 | h1 | ⟨t', m, u, h3⟩
      · rw [h0] at h
        cases h
      · rw [h1] at h
        simp at h
      · rw [h3] at h ⊢
        simp at h
        subst h
        exact ⟨[.json], rfl, rfl⟩
    | notificationclick n =>
      change Call.waitUntil p ∈ (notificationclickListener n).trace at h
      change ∃ before, (notificationclickListener n).trace = _ ∧ _
      rcases click_trace_cases n with h1 | h3
      · rw [h1] at h
        simp at h
      · rw [h3] at h ⊢
        simp at h
        subst h
        exact ⟨[.close], rfl, rfl⟩

/-- Witness of C7 on the push payload with title "T", message "M" and url
"/x". -/
theorem C7_waitUntil_on_own_request_witness :
    waitArgs (pushListener (some ⟨some (.obj [("title", .str "T"), ("message", .str "M"),
        ("url", .str "/x")])⟩)).trace
      = [⟨.showNotification (.str "T") (options (.str "M") (.str "/x"))⟩] :=
  C7_waitUntil_on_own_request.1
    (some ⟨some (.obj [("title", .str "T"), ("message", .str "M"), ("url", .str "/x")])⟩)
    (.str "T") (options (.str "M") (.str "/x"))
    (List.mem_cons_of_mem _ (List.mem_cons_self _ _))

/-- C8: `sw.js` keeps no state between events. Run as a program by an
interpreter that threads the worker's global state from event to event, from
any starting state and after any events, the platform calls of a sequence of
events are the concatenation of the calls each event produces when delivered
on its own to a fresh worker, the global state is never changed, the calls of
an event do not depend on what was handled before it, and they are the calls
of the listener for that event. -/
theorem C8_sw_traces_independent (store : Store) (before events : List Event) (e : Event) :
    (runWorker sw events store).1 = (events.map fun ev => (deliver sw ev []).1).flatten ∧
    (runWorker sw events store).2 = store ∧
    (deliver sw e (runWorker sw before store).2).1 = (deliver sw e []).1 ∧
    (runWorker sw (before ++ [e]) store).1
      = (runWorker sw before store).1 ++ (deliver sw e []).1 ∧
    (deliver sw e []).1 = (handle e).trace := by
  have hrun : ∀ (es : List Event) (s : Store),
      runWorker sw es s = ((es.map fun ev => (handle ev).trace).flatten, s) := by
    intro es s
    unfold runWorker
    rw [foldl_deliver_sw]
    rfl
  refine ⟨?_, ?_, ?_, ?_, ?_⟩
  · rw [hrun]
    simp only [deliver_sw]
  · rw [hrun]
  · rw [deliver_sw, deliver_sw]
  · rw [hrun, hrun, deliver_sw]
    simp
  · rw [deliver_sw]

/-- C9: for a push payload whose `url` is a non-empty string `U`, the one
notification requested carries `U` itself as its data, the notification the
platform creates from it has data `U`, and a click on a notification carrying
that data issues exactly one `openWindow` request, for `U`. -/
theorem C9_push_click_roundtrip (d : PushMessageData) (fields : List (String × JSVal))
    (U : String) (hjson : d.json = some (.obj fields))
    (hU : fields.lookup "url" = some (.str U)) (hne : U ≠ "") :
    ∃ t o, showRequests (pushListener (some d)).trace = [(t, o)] ∧
      o.own "data" = some (.str U) ∧
      (shownNotification o).data = .str U ∧
      openRequests (notificationclickListener (shownNotification o)).trace = [.str U] ∧
      ∀ n : Notification, some n.data = o.own "data" →
        openRequests (notificationclickListener n).trace = [.str U] := by
  obtain ⟨j⟩ := d
  simp only at hjson
  subst hjson
  have htruthy : (JSVal.str U).truthy = true := by simp [JSVal.truthy, hne]
  have hclick : ∀ n : Notification, n.data = .str U →
      openRequests (notificationclickListener n).trace = [.str U] := by
    intro n hn
    rw [click_truthy n (by rw [hn]; exact htruthy), hn]
    rfl
  rw [pushListener_obj, hU]
  refine ⟨_, _, rfl, rfl, rfl, hclick _ rfl, ?_⟩
  intro n hn
  exact hclick n (Option.some.inj hn)

/-- Witness of C9 on the payload with title "T", message "M" and url "/x". -/
theorem C9_push_click_roundtrip_witness :
    ∃ t o, showRequests (pushListener (some ⟨some (.obj [("title", .str "T"),
        ("message", .str "M"), ("url", .str "/x")])⟩)).trace = [(t, o)] ∧
      o.own "data" = some (.str "/x") ∧
      (shownNotification o).data = .str "/x" ∧
      openRequests (notificationclickListener (shownNotification o)).trace = [.str "/x"] ∧
      ∀ n : Notification, some n.data = o.own "data" →
        openRequests (notificationclickListener n).trace = [.str "/x"] :=
  C9_push_click_roundtrip ⟨some (.obj [("title", .str "T"), ("message", .str "M"),
    ("url", .str "/x")])⟩ [("title", .str "T"), ("message", .str "M"), ("url", .str "/x")]
    "/x" rfl rfl (by decide)

/-- C10: the click listener issues an `openWindow` request exactly when the
notification data is truthy; on the falsy data `""`, `0`, `false` and `null`
the trace is the single `close` call; a push payload whose `url` is missing or
`""` still gets its one `showNotification` request, and a click on the
notification created from it only closes it; and every click trace holds
exactly one `close` call. -/
theorem C10_click_decides_by_truthiness :
    (∀ n : Notification,
      (∃ u, Call.request (.openWindow u) ∈ (notificationclickListener n).trace)
        ↔ n.data.truthy = true) ∧
    (notificationclickListener ⟨.str ""⟩).trace = [.close] ∧
    (notificationclickListener ⟨.num (.finite 0)⟩).trace = [.close] ∧
    (notificationclickListener ⟨.bool false⟩).trace = [.close] ∧
    (notificationclickListener ⟨.null⟩).trace = [.close] ∧
    (∀ (d : PushMessageData) (fields : List (String × JSVal)),
      d.json = some (.obj fields) →
      (fields.lookup "url" = none ∨ fields.lookup "url" = some (.str "")) →
      ∃ t o, showRequests (pushListener (some d)).trace = [(t, o)] ∧
        (notificationclickListener (shownNotification o)).trace = [.close]) ∧
    (∀ n : Notification, closeCount (notificationclickListener n).trace = 1) := by
  refine ⟨?_, rfl, rfl, rfl, rfl, ?_, ?_⟩
  · intro n
    cases h : n.data.truthy
    · rw [click_falsy n h]
      simp
    · rw [click_truthy n h]
      simp
  · intro d fields hjson hurl
    obtain ⟨j⟩ := d
    simp only at hjson
    subst hjson
    rw [pushListener_obj]
    rcases hurl with h | h <;> rw [h] <;> exact ⟨_, _, rfl, rfl⟩
  · intro n
    rcases click_trace_cases n with h | h <;> rw [h] <;> rfl

/-- Witness of C10 on the push payload with title "T", message "M" and the
empty url. -/
theorem C10_click_decides_by_truthiness_witness :
    ∃ t o, showRequests (pushListener (some ⟨some (.obj [("title", .str "T"),
        ("message", .str "M"), ("url", .str "")])⟩)).trace = [(t, o)] ∧
      (notificationclickListener (shownNotification o)).trace = [.close] :=
  C10_click_decides_by_truthiness.2.2.2.2.2.1
    ⟨some (.obj [("title", .str "T"), ("message", .str "M"), ("url", .str "")])⟩
    [("title", .str "T"), ("message", .str "M"), ("url", .str "")] rfl (Or.inr rfl)

end SW
